import Mathlib

/-!
Verification development for the positive-news aggregator repository.

The TypeScript sources under src/ are shallowly embedded below:
  - pure string utilities (URL normalisation, identifier shape checks) become
    Lean functions on `String` / `List Char`;
  - the Supabase-backed persistent store becomes an explicit `DB` state value
    (lists of rows plus fresh-id counters), and every service function becomes
    a state-passing function that additionally returns the list of store calls
    it performed (so that "no store call is made" is a provable statement);
  - asynchronous code is sequential in the source (each handler awaits each
    call in order), so the embedding is plain sequential state passing.
-/

/-! ## Character and string utilities (JS semantics) -/

/-- JS `String.prototype.toLowerCase`, modelled characterwise. -/
def jsToLower (cs : List Char) : List Char := cs.map Char.toLower

/-- JS `String.prototype.trim`: drop leading and trailing whitespace. -/
def jsTrim (cs : List Char) : List Char :=
  ((cs.dropWhile Char.isWhitespace).reverse.dropWhile Char.isWhitespace).reverse

/-- JS `trim` on strings (characterwise model of `String.prototype.trim`). -/
def jsTrimStr (s : String) : String := ⟨jsTrim s.data⟩

/-- JS `.replace(/\/$/, "")`: remove one trailing slash if present. -/
def stripOneTrailingSlash (cs : List Char) : List Char :=
  if cs.getLast? = some '/' then cs.dropLast else cs

/-- JS string truthiness for an optional string field: `undefined` and the
empty string are falsy. -/
def idTruthy (o : Option String) : Bool := o.getD "" ≠ ""

/-! ## URL parsing (modelled platform builtin)

`new URL(url)` is a platform builtin, not repository code.  It is modelled
here restricted to the hierarchical form actually relevant to the claims:
strings of the shape `scheme://host[:port][/path][?query][#fragment]` with a
syntactically valid scheme parse into hostname and pathname (query and
fragment excluded, WHATWG default pathname "/" when the path is absent);
every other input is treated as unparseable (the constructor throwing), which
sends `normalizeUrl` into its catch branch exactly as in the source.
Dot-segment resolution and host punycoding are outside the model. -/

/-- Scheme characters after the first: ALPHA / DIGIT / "+" / "-" / ".". -/
def isSchemeChar (c : Char) : Bool :=
  c.isAlpha || c.isDigit || c == '+' || c == '-' || c == '.'

/-- A valid URL scheme: a letter followed by scheme characters. -/
def validScheme : List Char → Bool
  | [] => false
  | c :: rest => c.isAlpha && rest.all isSchemeChar

/-- Split a character list at its first colon: `some (before, after)`. -/
def splitAtColon : List Char → Option (List Char × List Char)
  | [] => none
  | c :: rest =>
    if c = ':' then some ([], rest)
    else (splitAtColon rest).map (fun p => (c :: p.1, p.2))

/-- A character ending the host component. -/
def isHostEnd (c : Char) : Bool := c == '/' || c == ':' || c == '?' || c == '#'

/-- A character ending the path component. -/
def isPathEnd (c : Char) : Bool := c == '?' || c == '#'

structure URLParts where
  hostname : List Char
  pathname : List Char
deriving DecidableEq, Repr

/-- Host component of what follows `scheme://`: up to the first delimiter. -/
def hostPart (rest : List Char) : List Char := rest.takeWhile (fun c => !isHostEnd c)

/-- What follows the host, with a port (colon then digits up to the path,
query or fragment) skipped. -/
def afterHost (rest : List Char) : List Char :=
  match rest.dropWhile (fun c => !isHostEnd c) with
  | ':' :: t => t.dropWhile (fun c => !(c == '/' || c == '?' || c == '#'))
  | other => other

/-- Path component: from the slash after the host up to a query or fragment;
the WHATWG default "/" when absent. -/
def pathPart (rest : List Char) : List Char :=
  match afterHost rest with
  | '/' :: _ => (afterHost rest).takeWhile (fun c => !isPathEnd c)
  | _ => ['/']

/-- Modelled `new URL`: see the section comment above for its scope. -/
def parseURL (cs : List Char) : Option URLParts :=
  match splitAtColon cs with
  | none => none
  | some (scheme, rest) =>
    if validScheme scheme then
      match rest with
      | '/' :: '/' :: rest2 => some ⟨hostPart rest2, pathPart rest2⟩
      | _ => none
    else none

/-- src/services/db/articleService.ts, `normalizeUrl`, character-level core:
try branch returns `(u.hostname + u.pathname.replace(/\/$/, "")).toLowerCase()`;
catch branch returns `url.trim().toLowerCase().replace(/\/$/, "")`. -/
def normalizeChars (cs : List Char) : List Char :=
  match parseURL cs with
  | some parts => jsToLower (parts.hostname ++ stripOneTrailingSlash parts.pathname)
  | none => stripOneTrailingSlash (jsToLower (jsTrim cs))

/-- `normalizeUrl` as a string function. -/
def normalizeUrl (url : String) : String := ⟨normalizeChars url.data⟩

/-! ## Identifier shape checks -/

/-- Hex digit as in the character class `[0-9a-fA-F]`. -/
def isHexDigit (c : Char) : Bool :=
  c.isDigit || ('a' ≤ c && c ≤ 'f') || ('A' ≤ c && c ≤ 'F')

/-- One position of the UUID pattern
`/^[0-9a-fA-F]{8}-[0-9a-fA-F]{4}-[0-9a-fA-F]{4}-[0-9a-fA-F]{4}-[0-9a-fA-F]{12}$/`:
hyphens at indices 8, 13, 18, 23, hex digits elsewhere. -/
def uuidCharOk (cs : List Char) (i : Nat) : Bool :=
  if i == 8 || i == 13 || i == 18 || i == 23 then cs.getD i ' ' == '-'
  else isHexDigit (cs.getD i ' ')

/-- src/services/db/favoriteService.ts, `isValidUUID`: falsy ids fail, then
the strict 8-4-4-4-12 UUID regex is tested. -/
def isValidUUID (s : String) : Bool :=
  s ≠ "" && s.data.length == 36 && (List.range 36).all (uuidCharOk s.data)

/-- src/hooks/useNewsApp.ts, the inline shape test in `ensureArticleSaved`:
`/^[0-9a-fA-F-]{36}$/` — any 36 characters, each a hex digit or a hyphen. -/
def isDurableShaped (s : String) : Bool :=
  s.data.length == 36 && s.data.all (fun c => isHexDigit c || c == '-')


/-! ## Data model -/

/-- The Article record used by `src/types` (field set as consumed by the
embedded code; `sentimentScore` is a numeric payload carried opaquely — its
floating-point semantics are never computed on in the embedded claims). -/
structure Article where
  id : Option String
  url : String
  title : String
  summary : String
  source : String
  date : String
  category : String
  imageUrl : String
  audioBase64 : String
  sentimentScore : Int
  likeCount : Nat
  dislikeCount : Nat
deriving DecidableEq, Repr

/-- A row of the `articles` relation (`rowId` is the store-assigned `id`
column, unique on `url`). -/
structure ArticleRow where
  rowId : String
  url : String
  category : String
  title : String
  summary : String
  source : String
  published_date : String
  sentiment_score : Int
  image_url : Option String
  audio_base64 : Option String
deriving DecidableEq, Repr

/-- A row of the `likes` or `dislikes` relation; `rowId` models the
store-assigned primary key `id` used for delete-by-id. -/
structure VoteRow where
  rowId : Nat
  articleId : String
  userId : String
deriving DecidableEq, Repr

/-- A row of the `favorites` relation. -/
structure FavRow where
  articleId : String
  userId : String
deriving DecidableEq, Repr

/-- A row of the `comments` relation. -/
structure CommentRow where
  id : String
  articleId : String
  userId : String
  username : String
  text : String
deriving DecidableEq, Repr

/-- The persistent store: the five relations plus counters from which fresh
store-assigned ids are drawn (a modelling artifact standing for the id
generation the store performs). -/
structure DB where
  articles : List ArticleRow
  likes : List VoteRow
  dislikes : List VoteRow
  favorites : List FavRow
  comments : List CommentRow
  nextVoteId : Nat
  nextArticleId : Nat
deriving DecidableEq, Repr

def emptyDB : DB := ⟨[], [], [], [], [], 0, 0⟩

/-- Fresh store-assigned article id (shape immaterial to the claims). -/
def freshArticleId (n : Nat) : String := "row-" ++ toString n

/-- One store call, recorded so that statements like "no store call is made"
are provable.  Constructor arguments name the table and filter values of the
corresponding supabase call. -/
inductive StoreCall where
  | deleteVotes (table : String) (articleId userId : String)
  | selectVote (table : String) (articleId userId : String)
  | deleteVoteById (table : String) (rowId : Nat)
  | insertVote (table : String) (articleId userId : String)
  | countVotes (table : String) (articleId : String)
  | batchSelectVotes (table : String) (ids : List String)
  | selectArticleByUrl (url : String)
  | upsertArticle (url : String)
  | selectFavorite (articleId userId : String)
  | insertFavorite (articleId userId : String)
  | deleteFavorite (articleId userId : String)
  | deleteCommentRow (commentId userId : String)
deriving DecidableEq, Repr

/-- Does a vote row match the (articleId, userId) pair? -/
def voteMatches (a u : String) (r : VoteRow) : Bool :=
  r.articleId == a && r.userId == u

/-- A like row exists for the pair. -/
def hasLike (db : DB) (a u : String) : Bool := db.likes.any (voteMatches a u)

/-- A dislike row exists for the pair. -/
def hasDislike (db : DB) (a u : String) : Bool := db.dislikes.any (voteMatches a u)

/-! ## Engagement store: src/services/db/favoriteService.ts -/

/-- `toggleLike(articleId, userId)`: guard on `isValidUUID`, delete the
opposite-kind vote, look up an existing like (maybeSingle), then either
delete it by row id and report false, or insert a new like and report true.
Returns (reported boolean, new store state, store calls made). -/
def toggleLike (a u : String) (db : DB) : Bool × DB × List StoreCall :=
  if !isValidUUID a then (false, db, [])
  else
    let db1 := { db with dislikes := db.dislikes.filter (fun r => !voteMatches a u r) }
    match db1.likes.find? (voteMatches a u) with
    | some r =>
      (false,
       { db1 with likes := db1.likes.filter (fun x => x.rowId != r.rowId) },
       [.deleteVotes "dislikes" a u, .selectVote "likes" a u, .deleteVoteById "likes" r.rowId])
    | none =>
      (true,
       { db1 with likes := db1.likes ++ [⟨db1.nextVoteId, a, u⟩],
                  nextVoteId := db1.nextVoteId + 1 },
       [.deleteVotes "dislikes" a u, .selectVote "likes" a u, .insertVote "likes" a u])

/-- `toggleDislike(articleId, userId)`: the mirror image of `toggleLike`. -/
def toggleDislike (a u : String) (db : DB) : Bool × DB × List StoreCall :=
  if !isValidUUID a then (false, db, [])
  else
    let db1 := { db with likes := db.likes.filter (fun r => !voteMatches a u r) }
    match db1.dislikes.find? (voteMatches a u) with
    | some r =>
      (false,
       { db1 with dislikes := db1.dislikes.filter (fun x => x.rowId != r.rowId) },
       [.deleteVotes "likes" a u, .selectVote "dislikes" a u, .deleteVoteById "dislikes" r.rowId])
    | none =>
      (true,
       { db1 with dislikes := db1.dislikes ++ [⟨db1.nextVoteId, a, u⟩],
                  nextVoteId := db1.nextVoteId + 1 },
       [.deleteVotes "likes" a u, .selectVote "dislikes" a u, .insertVote "dislikes" a u])

/-- `getLikeCount(articleId)`: 0 without a store call for invalid ids, else
the exact cardinality of the like rows for the article. -/
def getLikeCount (a : String) (db : DB) : Nat × List StoreCall :=
  if !isValidUUID a then (0, [])
  else ((db.likes.filter (fun r => r.articleId == a)).length, [.countVotes "likes" a])

/-- `getDislikeCount(articleId)`: mirror of `getLikeCount`. -/
def getDislikeCount (a : String) (db : DB) : Nat × List StoreCall :=
  if !isValidUUID a then (0, [])
  else ((db.dislikes.filter (fun r => r.articleId == a)).length, [.countVotes "dislikes" a])

/-- Result of `getBatchCounts`.  The source builds two `Record<string,number>`
maps by incrementing per returned row; a missing key is read back as 0 via
`|| 0`, so the maps are modelled as total counting functions. -/
structure BatchCounts where
  likes : String → Nat
  dislikes : String → Nat

/-- `getBatchCounts(articleIds)`: filters the ids through `isValidUUID`; with
no valid ids it returns empty maps without any store call, otherwise two bulk
selects produce per-article counts for the valid ids. -/
def getBatchCounts (ids : List String) (db : DB) : BatchCounts × List StoreCall :=
  let validIds := ids.filter isValidUUID
  if validIds.isEmpty then ({ likes := fun _ => 0, dislikes := fun _ => 0 }, [])
  else
    ({ likes := fun id =>
         if validIds.contains id then (db.likes.filter (fun r => r.articleId == id)).length else 0,
       dislikes := fun id =>
         if validIds.contains id then (db.dislikes.filter (fun r => r.articleId == id)).length else 0 },
     [.batchSelectVotes "likes" validIds, .batchSelectVotes "dislikes" validIds])

/-- `deleteComment(commentId, userId)`: unconditionally issues a delete
filtered on both the comment id and the author id; errors are only logged. -/
def deleteComment (commentId userId : String) (db : DB) : DB × List StoreCall :=
  ({ db with comments := db.comments.filter (fun r => !(r.id == commentId && r.userId == userId)) },
   [.deleteCommentRow commentId userId])

/-- `addFavorite(articleId, userId)`: guard, then insert; a duplicate-key
conflict (code 23505, the pair already present) is reported as success with
the store unchanged. -/
def addFavorite (a u : String) (db : DB) : Bool × DB × List StoreCall :=
  if !isValidUUID a || u == "" then (false, db, [])
  else if db.favorites.any (fun r => r.articleId == a && r.userId == u) then
    (true, db, [.insertFavorite a u])
  else
    (true, { db with favorites := db.favorites ++ [⟨a, u⟩] }, [.insertFavorite a u])

/-- `removeFavorite(articleId, userId)`: guard, then delete by pair. -/
def removeFavorite (a u : String) (db : DB) : Bool × DB × List StoreCall :=
  if !isValidUUID a || u == "" then (false, db, [])
  else
    (true,
     { db with favorites := db.favorites.filter (fun r => !(r.articleId == a && r.userId == u)) },
     [.deleteFavorite a u])

/-! ## Article cache gateway: src/services/db/articleService.ts -/

/-- The normalized deduplication key of an article url. -/
def normKey (a : Article) : String := normalizeUrl a.url

/-- The input-deduplication loop of `saveArticles`: a JS `Map` keyed on the
normalized url, set only when the key is not yet present (first occurrence
wins, iteration in insertion order); articles with a falsy (empty) `url` are
skipped by the `if (a.url)` guard.  `seen` accumulates the keys already in
the map. -/
def dedupByNorm : List Article → List String → List Article
  | [], _ => []
  | a :: rest, seen =>
    if a.url = "" then dedupByNorm rest seen
    else if seen.contains (normalizeUrl a.url) then dedupByNorm rest seen
    else a :: dedupByNorm rest (normalizeUrl a.url :: seen)

/-- The row object built for each unique article inside `saveArticles`
(JS `||` defaults modelled by emptiness tests). -/
structure ArticleInsert where
  url : String
  category : String
  title : String
  summary : String
  source : String
  published_date : String
  sentiment_score : Int
  image_url : Option String
  audio_base64 : Option String
deriving DecidableEq, Repr

def mkRow (cleanCategory : String) (a : Article) : ArticleInsert :=
  { url := a.url
    category := if a.category ≠ "" then a.category else cleanCategory
    title := a.title
    summary := a.summary
    source := a.source
    published_date := a.date
    sentiment_score := a.sentimentScore
    image_url := if a.imageUrl ≠ "" then some a.imageUrl else none
    audio_base64 := if a.audioBase64 ≠ "" then some a.audioBase64 else none }

/-- `upsert(row, { onConflict: url }).select().single()`: a conflict on the
unique `url` column updates the existing row keeping its id; otherwise a new
row with a fresh store-assigned id is inserted.  Returns the resulting row. -/
def upsertArticle (r : ArticleInsert) (db : DB) : ArticleRow × DB :=
  match db.articles.find? (fun x => x.url == r.url) with
  | some ex =>
    let updated : ArticleRow :=
      { rowId := ex.rowId, url := r.url, category := r.category, title := r.title,
        summary := r.summary, source := r.source, published_date := r.published_date,
        sentiment_score := r.sentiment_score, image_url := r.image_url,
        audio_base64 := r.audio_base64 }
    (updated, { db with articles := db.articles.map (fun x => if x.url == r.url then updated else x) })
  | none =>
    let newRow : ArticleRow :=
      { rowId := freshArticleId db.nextArticleId, url := r.url, category := r.category,
        title := r.title, summary := r.summary, source := r.source,
        published_date := r.published_date, sentiment_score := r.sentiment_score,
        image_url := r.image_url, audio_base64 := r.audio_base64 }
    (newRow, { db with articles := db.articles ++ [newRow], nextArticleId := db.nextArticleId + 1 })

/-- The article pushed onto `savedArticles` after a successful upsert:
`{...article, id: data.id, category: data.category, audioBase64:
data.audio_base_64 || data.audio_base64}` — `data.audio_base_64` reads a
misspelled column and is always undefined, so the value falls through to the
stored `audio_base64` (null modelled as the empty string, both JS-falsy). -/
def pushSaved (a : Article) (row : ArticleRow) : Article :=
  { a with id := some row.rowId, category := row.category,
           audioBase64 := row.audio_base64.getD "" }

/-- The persistence loop of `saveArticles` over the deduplicated input.  The
per-article try/catch is modelled by the success oracle `ok` on the raw url:
a failing upsert performs the call but writes nothing and pushes nothing. -/
def saveLoop (ok : String → Bool) (cleanCategory : String) :
    List Article → DB → List Article × DB × List StoreCall
  | [], db => ([], db, [])
  | a :: rest, db =>
    if ok a.url then
      let res := upsertArticle (mkRow cleanCategory a) db
      let tail := saveLoop ok cleanCategory rest res.2
      (pushSaved a res.1 :: tail.1, tail.2.1, .upsertArticle a.url :: tail.2.2)
    else
      let tail := saveLoop ok cleanCategory rest db
      (tail.1, tail.2.1, .upsertArticle a.url :: tail.2.2)

/-- `saveArticles(categoryLabel, articles)`: empty input short-circuits;
otherwise the input is deduplicated by normalized url and each unique
article is upserted, successfully persisted articles being returned with
their durable ids attached. -/
def saveArticles (ok : String → Bool) (categoryLabel : String) (articles : List Article)
    (db : DB) : List Article × DB × List StoreCall :=
  if articles.isEmpty then ([], db, [])
  else
    let cleanCategory := jsTrimStr (if categoryLabel ≠ "" then categoryLabel else "Generale")
    saveLoop ok cleanCategory (dedupByNorm articles []) db

/-! ## Hook layer: src/hooks/useNewsApp.ts -/

/-- In-memory state of the `useNewsApp` hook (the fields the embedded
handlers touch; the toast timer is ignored, `showToast` just records the
message). -/
structure AppState where
  articles : List Article
  selectedArticle : Option Article
  showLoginModal : Bool
  favoriteArticleIds : List String
  currentUser : Option (String × String)
  notification : Option String
deriving DecidableEq, Repr

/-- `showToast(msg)`: record the notification message. -/
def showToast (msg : String) (st : AppState) : AppState :=
  { st with notification := some msg }

/-- `handleArticleUpdate(updated)`: replace, in the list and in the selected
pointer, every article whose id or url matches (the spread `{...a,
...updated}` overwrites every field, so the merged value is `updated`). -/
def handleArticleUpdate (updated : Article) (st : AppState) : AppState :=
  { st with
    articles := st.articles.map
      (fun a => if a.id == updated.id || a.url == updated.url then updated else a)
    selectedArticle := st.selectedArticle.map
      (fun p => if p.id == updated.id || p.url == updated.url then updated else p) }

/-- `ensureArticleSaved(article)`: (1) an id that is present and passes the
36-character hex-or-hyphen shape test is returned unchanged without any
store call; (2) otherwise a row with the same raw url is looked up and its
id returned; (3) otherwise the article is persisted through `saveArticles`
(category defaulting to "Generale" when absent) and the new id returned;
(4) when nothing was persisted the result is `null`. -/
def ensureArticleSaved (ok : String → Bool) (art : Article) (db : DB) :
    Option String × DB × List StoreCall :=
  if idTruthy art.id && isDurableShaped (art.id.getD "") then (art.id, db, [])
  else
    match db.articles.find? (fun x => x.url == art.url) with
    | some row => (some row.rowId, db, [.selectArticleByUrl art.url])
    | none =>
      let label := if art.category ≠ "" then art.category else "Generale"
      let (saved, db1, tr) := saveArticles ok label [art] db
      match saved with
      | s :: _ => ((if idTruthy s.id then s.id else none), db1, .selectArticleByUrl art.url :: tr)
      | [] => (none, db1, .selectArticleByUrl art.url :: tr)

/-- The truthy-id filter `list.map(a => a.id).filter(id => !!id)`: map to the
ids, keep the truthy ones. -/
def truthyIds (list : List Article) : List String :=
  (list.map (fun a => a.id)).filterMap (fun o => if idTruthy o then o else none)

/-- `enrichArticlesWithCounts(list)`: with no truthy id the list is returned
as is; otherwise one batched count lookup rewrites each article's counts
(`a.id ? counts[a.id] || 0 : 0`).  A failing lookup (the catch branch) is
modelled by `batchOk = false` and returns the original list. -/
def enrichArticlesWithCounts (batchOk : Bool) (list : List Article) (db : DB) : List Article :=
  let ids := truthyIds list
  if ids.isEmpty then list
  else if !batchOk then list
  else
    let counts := (getBatchCounts ids db).1
    list.map (fun a =>
      { a with likeCount := if idTruthy a.id then counts.likes (a.id.getD "") else 0
               dislikeCount := if idTruthy a.id then counts.dislikes (a.id.getD "") else 0 })

/-- `handleLike(article)`: require a user (else raise the login modal and
stop), resolve the durable id (abort on failure), toggle, re-read both
counts, broadcast the update and toast. -/
def handleLike (ok : String → Bool) (article : Article) (st : AppState) (db : DB) :
    AppState × DB × List StoreCall :=
  match st.currentUser with
  | none => ({ st with showLoginModal := true }, db, [])
  | some user =>
    let (tid?, db1, tr1) := ensureArticleSaved ok article db
    match tid? with
    | none => (st, db1, tr1)
    | some tid =>
      let (_, db2, tr2) := toggleLike tid user.1 db1
      let (nLike, tr3) := getLikeCount tid db2
      let (nDislike, tr4) := getDislikeCount tid db2
      let updated := { article with id := some tid, likeCount := nLike, dislikeCount := nDislike }
      (showToast "Grazie per il tuo feedback positivo! ✨" (handleArticleUpdate updated st),
       db2, tr1 ++ tr2 ++ tr3 ++ tr4)

/-- `handleDislike(article)`: mirror of `handleLike`. -/
def handleDislike (ok : String → Bool) (article : Article) (st : AppState) (db : DB) :
    AppState × DB × List StoreCall :=
  match st.currentUser with
  | none => ({ st with showLoginModal := true }, db, [])
  | some user =>
    let (tid?, db1, tr1) := ensureArticleSaved ok article db
    match tid? with
    | none => (st, db1, tr1)
    | some tid =>
      let (_, db2, tr2) := toggleDislike tid user.1 db1
      let (nLike, tr3) := getLikeCount tid db2
      let (nDislike, tr4) := getDislikeCount tid db2
      let updated := { article with id := some tid, likeCount := nLike, dislikeCount := nDislike }
      (showToast "Feedback ricevuto." (handleArticleUpdate updated st),
       db2, tr1 ++ tr2 ++ tr3 ++ tr4)

/-- `handleToggleFavorite(article)`: require a user (else raise the login
modal and stop), resolve the durable id (abort on failure), then flip the
membership in the client-held favorite set mirroring an add/remove call on
the store (whose boolean result the source ignores). -/
def handleToggleFavorite (ok : String → Bool) (article : Article) (st : AppState) (db : DB) :
    AppState × DB × List StoreCall :=
  match st.currentUser with
  | none => ({ st with showLoginModal := true }, db, [])
  | some user =>
    let (tid?, db1, tr1) := ensureArticleSaved ok article db
    match tid? with
    | none => (st, db1, tr1)
    | some tid =>
      if st.favoriteArticleIds.contains tid then
        let (_, db2, tr2) := removeFavorite tid user.1 db1
        (showToast "Rimosso dai preferiti 💔"
          { st with favoriteArticleIds := st.favoriteArticleIds.filter (fun x => x ≠ tid) },
         db2, tr1 ++ tr2)
      else
        let (_, db2, tr2) := addFavorite tid user.1 db1
        (showToast "Aggiunto ai preferiti! ❤️"
          { st with favoriteArticleIds :=
              if st.favoriteArticleIds.contains tid then st.favoriteArticleIds
              else st.favoriteArticleIds ++ [tid] },
         db2, tr1 ++ tr2)

/-! ## Auxiliary definitions for the claims -/

/-- At most one of a like row and a dislike row exists for the pair. -/
def atMostOneVote (db : DB) (a u : String) : Prop :=
  ¬(hasLike db a u = true ∧ hasDislike db a u = true)

/-- One sequentially executed toggle call, result discarded. -/
inductive Toggle where
  | like (articleId userId : String)
  | dislike (articleId userId : String)
deriving DecidableEq, Repr

def applyToggle (t : Toggle) (db : DB) : DB :=
  match t with
  | .like a u => (toggleLike a u db).2.1
  | .dislike a u => (toggleDislike a u db).2.1

def applyToggles (ts : List Toggle) (db : DB) : DB :=
  match ts with
  | [] => db
  | t :: rest => applyToggles rest (applyToggle t db)

/-- The clean category computed by `saveArticles`. -/
def cleanCat (categoryLabel : String) : String :=
  jsTrimStr (if categoryLabel ≠ "" then categoryLabel else "Generale")

/-- Sample inputs for concrete instantiations. -/
def sampleArtValid : Article :=
  ⟨some "aaaaaaaa-bbbb-cccc-dddd-eeeeeeeeeeee", "http://x.com/a", "t", "s", "src", "d",
   "Cat", "", "", 0, 0, 0⟩

def sampleArtNoId : Article := ⟨none, "http://x.com/b", "t", "s", "src", "d", "Cat", "", "", 0, 9, 9⟩

def sampleDB7 : DB := ⟨[], [⟨0, "aaaaaaaa-bbbb-cccc-dddd-eeeeeeeeeeee", "u1"⟩], [], [], [], 1, 0⟩

/-- Claim-side definition, following the words of the specification: the
unique normalized keys of an input batch, first occurrence winning, computed
over every article of the batch (the spec guarantees a key for every url,
the empty one included). -/
def firstWins : List String → List String → List String
  | [], _ => []
  | k :: rest, seen =>
    if seen.contains k then firstWins rest seen else k :: firstWins rest (k :: seen)

def claimedUniqueKeys (articles : List Article) : List String :=
  firstWins (articles.map normKey) []

/-- Two articles whose urls differ only in scheme and a trailing slash: the
same normalized key. -/
def artDup1 : Article := ⟨none, "https://x.com/a/", "t", "s", "src", "d", "Cat", "", "", 0, 0, 0⟩

def artDup2 : Article :=
  ⟨none, "http://x.com/a", "t2", "s2", "src2", "d2", "Cat", "", "", 0, 0, 0⟩

/-! ## Helper lemmas -/

lemma any_of_filter {α} (p q : α → Bool) (l : List α)
    (h : (l.filter p).any q = true) : l.any q = true := by
  simp only [List.any_eq_true, List.mem_filter] at h ⊢
  obtain ⟨x, ⟨hx, _⟩, hq⟩ := h
  exact ⟨x, hx, hq⟩

lemma any_append_singleton {α} (q : α → Bool) (l : List α) (x : α)
    (h : (l ++ [x]).any q = true) : l.any q = true ∨ q x = true := by
  simp only [List.any_eq_true, List.mem_append, List.mem_singleton] at h
  obtain ⟨y, hy | rfl, hq⟩ := h
  · exact Or.inl (List.any_eq_true.mpr ⟨y, hy, hq⟩)
  · exact Or.inr hq

lemma any_filter_not {α} (q : α → Bool) (l : List α) :
    (l.filter (fun r => !q r)).any q = false := by
  by_contra h
  rw [Bool.not_eq_false, List.any_eq_true] at h
  obtain ⟨x, hx, hq⟩ := h
  rw [List.mem_filter] at hx
  simp [hq] at hx

lemma filter_eq_self_of_none {α} (q : α → Bool) (l : List α)
    (h : l.any q = false) : l.filter (fun r => !q r) = l := by
  rw [List.filter_eq_self]
  intro x hx
  simp only [Bool.not_eq_true']
  by_contra hq
  rw [Bool.not_eq_false] at hq
  rw [Bool.eq_false_iff] at h
  exact h (List.any_eq_true.mpr ⟨x, hx, hq⟩)

lemma find?_eq_none_of_any_false {α} (q : α → Bool) (l : List α)
    (h : l.any q = false) : l.find? q = none := by
  rw [List.find?_eq_none]
  intro x hx
  rw [Bool.eq_false_iff] at h
  intro hq
  exact h (List.any_eq_true.mpr ⟨x, hx, hq⟩)

lemma find?_append_of_left_none {α} (q : α → Bool) (l1 l2 : List α)
    (h : l1.any q = false) : (l1 ++ l2).find? q = l2.find? q := by
  induction l1 with
  | nil => rfl
  | cons x xs ih =>
    simp only [List.any_cons, Bool.or_eq_false_iff] at h
    simp only [List.cons_append, List.find?]
    rw [h.1]
    exact ih h.2

/-! ## Vote state characterization -/

/-- After a valid `toggleLike`, the dislike relation is exactly the old one
with every row of the pair removed. -/
lemma toggleLike_dislikes (a' u' : String) (db : DB) (hv : isValidUUID a' = true) :
    (toggleLike a' u' db).2.1.dislikes = db.dislikes.filter (fun r => !voteMatches a' u' r) := by
  unfold toggleLike
  rw [hv]
  simp only [Bool.not_true, Bool.false_eq_true, if_false]
  split <;> rfl

/-- After a valid `toggleLike`, the like relation is either the old one with
one row id removed, or the old one with a fresh row for the pair appended. -/
lemma toggleLike_likes (a' u' : String) (db : DB) (hv : isValidUUID a' = true) :
    (∃ n, (toggleLike a' u' db).2.1.likes = db.likes.filter (fun x => x.rowId != n))
    ∨ (toggleLike a' u' db).2.1.likes = db.likes ++ [⟨db.nextVoteId, a', u'⟩] := by
  unfold toggleLike
  rw [hv]
  simp only [Bool.not_true, Bool.false_eq_true, if_false]
  split
  · exact Or.inl ⟨_, rfl⟩
  · exact Or.inr rfl

lemma toggleDislike_likes (a' u' : String) (db : DB) (hv : isValidUUID a' = true) :
    (toggleDislike a' u' db).2.1.likes = db.likes.filter (fun r => !voteMatches a' u' r) := by
  unfold toggleDislike
  rw [hv]
  simp only [Bool.not_true, Bool.false_eq_true, if_false]
  split <;> rfl

lemma toggleDislike_dislikes (a' u' : String) (db : DB) (hv : isValidUUID a' = true) :
    (∃ n, (toggleDislike a' u' db).2.1.dislikes = db.dislikes.filter (fun x => x.rowId != n))
    ∨ (toggleDislike a' u' db).2.1.dislikes = db.dislikes ++ [⟨db.nextVoteId, a', u'⟩] := by
  unfold toggleDislike
  rw [hv]
  simp only [Bool.not_true, Bool.false_eq_true, if_false]
  split
  · exact Or.inl ⟨_, rfl⟩
  · exact Or.inr rfl

lemma toggle_invalid_state (a' u' : String) (db : DB) (hv : isValidUUID a' = false) :
    (toggleLike a' u' db).2.1 = db ∧ (toggleDislike a' u' db).2.1 = db := by
  unfold toggleLike toggleDislike
  rw [hv]
  exact ⟨rfl, rfl⟩

lemma voteMatches_self (a u : String) (n : Nat) : voteMatches a u ⟨n, a, u⟩ = true := by
  simp [voteMatches]

lemma atMostOne_applyToggle (t : Toggle) (db : DB) (a u : String)
    (h : atMostOneVote db a u) : atMostOneVote (applyToggle t db) a u := by
  cases t with
  | like a' u' =>
    by_cases hv : isValidUUID a' = true
    · rintro ⟨hl, hd⟩
      by_cases hp : a = a' ∧ u = u'
      · obtain ⟨rfl, rfl⟩ := hp
        rw [show applyToggle (Toggle.like a u) db = (toggleLike a u db).2.1 from rfl] at hd
        rw [hasDislike, toggleLike_dislikes a u db hv, any_filter_not] at hd
        exact Bool.false_ne_true hd
      · have hd' : hasDislike db a u = true := by
          rw [show applyToggle (Toggle.like a' u') db = (toggleLike a' u' db).2.1 from rfl] at hd
          rw [hasDislike, toggleLike_dislikes a' u' db hv] at hd
          exact any_of_filter _ _ _ hd
        have hl' : hasLike db a u = true := by
          rw [show applyToggle (Toggle.like a' u') db = (toggleLike a' u' db).2.1 from rfl] at hl
          rw [hasLike] at hl ⊢
          rcases toggleLike_likes a' u' db hv with ⟨n, heq⟩ | heq
          · rw [heq] at hl
            exact any_of_filter _ _ _ hl
          · rw [heq] at hl
            rcases any_append_singleton _ _ _ hl with h1 | h1
            · exact h1
            · exfalso
              apply hp
              simp only [voteMatches] at h1
              rw [Bool.and_eq_true, beq_iff_eq, beq_iff_eq] at h1
              exact ⟨h1.1.symm, h1.2.symm⟩
        exact h ⟨hl', hd'⟩
    · rw [show applyToggle (Toggle.like a' u') db = (toggleLike a' u' db).2.1 from rfl,
        (toggle_invalid_state a' u' db (Bool.eq_false_iff.mpr hv)).1]
      exact h
  | dislike a' u' =>
    by_cases hv : isValidUUID a' = true
    · rintro ⟨hl, hd⟩
      by_cases hp : a = a' ∧ u = u'
      · obtain ⟨rfl, rfl⟩ := hp
        rw [show applyToggle (Toggle.dislike a u) db = (toggleDislike a u db).2.1 from rfl] at hl
        rw [hasLike, toggleDislike_likes a u db hv, any_filter_not] at hl
        exact Bool.false_ne_true hl
      · have hl' : hasLike db a u = true := by
          rw [show applyToggle (Toggle.dislike a' u') db = (toggleDislike a' u' db).2.1 from rfl] at hl
          rw [hasLike, toggleDislike_likes a' u' db hv] at hl
          exact any_of_filter _ _ _ hl
        have hd' : hasDislike db a u = true := by
          rw [show applyToggle (Toggle.dislike a' u') db = (toggleDislike a' u' db).2.1 from rfl] at hd
          rw [hasDislike] at hd ⊢
          rcases toggleDislike_dislikes a' u' db hv with ⟨n, heq⟩ | heq
          · rw [heq] at hd
            exact any_of_filter _ _ _ hd
          · rw [heq] at hd
            rcases any_append_singleton _ _ _ hd with h1 | h1
            · exact h1
            · exfalso
              apply hp
              simp only [voteMatches] at h1
              rw [Bool.and_eq_true, beq_iff_eq, beq_iff_eq] at h1
              exact ⟨h1.1.symm, h1.2.symm⟩
        exact h ⟨hl', hd'⟩
    · rw [show applyToggle (Toggle.dislike a' u') db = (toggleDislike a' u' db).2.1 from rfl,
        (toggle_invalid_state a' u' db (Bool.eq_false_iff.mpr hv)).2]
      exact h

/-- Claim C1: for every pair (articleId, userId), after any sequence of
sequentially executed toggleLike/toggleDislike calls starting from a state
with neither vote for the pair, at most one of a like row and a dislike row
exists for that pair. -/
theorem claim_C1 (ops : List Toggle) (db : DB) (a u : String)
    (hl : hasLike db a u = false) (hd : hasDislike db a u = false) :
    ¬(hasLike (applyToggles ops db) a u = true ∧ hasDislike (applyToggles ops db) a u = true) := by
  have h0 : atMostOneVote db a u := by
    rintro ⟨h1, h2⟩
    rw [h1] at hl
    rw [h2] at hd
    exact Bool.noConfusion hl
  clear hl hd
  induction ops generalizing db with
  | nil => exact h0
  | cons t rest ih =>
    exact ih (applyToggle t db) (atMostOne_applyToggle t db a u h0)

/-- Witness for C1 at a concrete toggle sequence on the empty store. -/
theorem claim_C1_witness :
    ¬(hasLike (applyToggles
        [Toggle.like "aaaaaaaa-bbbb-cccc-dddd-eeeeeeeeeeee" "u1",
         Toggle.dislike "aaaaaaaa-bbbb-cccc-dddd-eeeeeeeeeeee" "u1"] emptyDB)
        "aaaaaaaa-bbbb-cccc-dddd-eeeeeeeeeeee" "u1" = true
      ∧ hasDislike (applyToggles
        [Toggle.like "aaaaaaaa-bbbb-cccc-dddd-eeeeeeeeeeee" "u1",
         Toggle.dislike "aaaaaaaa-bbbb-cccc-dddd-eeeeeeeeeeee" "u1"] emptyDB)
        "aaaaaaaa-bbbb-cccc-dddd-eeeeeeeeeeee" "u1" = true) :=
  claim_C1 _ emptyDB _ _ (by decide) (by decide)

/-- Claim C6: for every articleId failing the durable-identifier shape check
(the strict UUID regex), toggleLike and toggleDislike return false without
performing any store read or write, for every userId. -/
theorem claim_C6 (a u : String) (db : DB) (h : isValidUUID a = false) :
    toggleLike a u db = (false, db, []) ∧ toggleDislike a u db = (false, db, []) := by
  unfold toggleLike toggleDislike
  rw [h]
  exact ⟨rfl, rfl⟩

/-- Witness for C6 at a concrete non-UUID id. -/
theorem claim_C6_witness :
    toggleLike "abc" "user-1" emptyDB = (false, emptyDB, [])
    ∧ toggleDislike "abc" "user-1" emptyDB = (false, emptyDB, []) :=
  claim_C6 "abc" "user-1" emptyDB (by decide)

/-- Claim C9: deleteComment removes a comment row only when the caller is the
stored author; with no row of that id authored by the caller it is a silent
no-op leaving the store unchanged, and in general a stored row disappears
exactly when both its id and its author match the call. -/
theorem claim_C9 (commentId userId : String) (db : DB) :
    ((∀ r ∈ db.comments, r.id = commentId → r.userId ≠ userId) →
      (deleteComment commentId userId db).1 = db)
    ∧ (∀ r ∈ db.comments,
        r ∈ (deleteComment commentId userId db).1.comments ↔ ¬(r.id = commentId ∧ r.userId = userId)) := by
  constructor
  · intro h
    unfold deleteComment
    simp only
    have : db.comments.filter (fun r => !(r.id == commentId && r.userId == userId)) = db.comments := by
      rw [List.filter_eq_self]
      intro r hr
      simp only [Bool.not_eq_eq_eq_not, Bool.not_true, Bool.and_eq_false_iff, beq_eq_false_iff_ne]
      by_cases hid : r.id = commentId
      · exact Or.inr (h r hr hid)
      · exact Or.inl hid
    rw [this]
  · intro r hr
    unfold deleteComment
    simp only [List.mem_filter, Bool.not_eq_eq_eq_not, Bool.not_true, Bool.and_eq_false_iff,
      beq_eq_false_iff_ne, ne_eq]
    constructor
    · rintro ⟨_, h1 | h1⟩ ⟨hc, hu⟩
      · exact h1 hc
      · exact h1 hu
    · intro hno
      refine ⟨hr, ?_⟩
      by_cases hid : r.id = commentId
      · exact Or.inr (fun hu => hno ⟨hid, hu⟩)
      · exact Or.inl hid

/-- Witness for C9: a non-author delete on a one-comment store is a no-op,
and the author row of a matching delete is removed. -/
theorem claim_C9_witness :
    (deleteComment "c1" "bob" ⟨[], [], [], [], [⟨"c1", "a1", "alice", "Alice", "hi"⟩], 0, 0⟩).1
      = ⟨[], [], [], [], [⟨"c1", "a1", "alice", "Alice", "hi"⟩], 0, 0⟩ :=
  (claim_C9 "c1" "bob" ⟨[], [], [], [], [⟨"c1", "a1", "alice", "Alice", "hi"⟩], 0, 0⟩).1 (by decide)

lemma validUUID_imp_durableShaped (s : String) (h : isValidUUID s = true) :
    isDurableShaped s = true := by
  unfold isValidUUID at h
  rw [Bool.and_eq_true, Bool.and_eq_true] at h
  obtain ⟨⟨_, hlen⟩, hall⟩ := h
  rw [beq_iff_eq] at hlen
  rw [List.all_eq_true] at hall
  unfold isDurableShaped
  rw [Bool.and_eq_true, beq_iff_eq, List.all_eq_true]
  refine ⟨hlen, ?_⟩
  intro c hc
  obtain ⟨⟨i, hi⟩, rfl⟩ := List.mem_iff_get.mp hc
  have hi36 : i < 36 := by rw [hlen] at hi; exact hi
  have hok := hall i (List.mem_range.mpr hi36)
  unfold uuidCharOk at hok
  have hgd : s.data.getD i ' ' = s.data.get ⟨i, hi⟩ := by
    rw [List.getD_eq_getElem?_getD, List.getElem?_eq_getElem hi]
    rfl
  rw [hgd] at hok
  by_cases hpos : (i == 8 || i == 13 || i == 18 || i == 23) = true
  · rw [if_pos hpos] at hok
    rw [Bool.or_eq_true]
    exact Or.inr hok
  · rw [if_neg hpos] at hok
    rw [Bool.or_eq_true]
    exact Or.inl hok

/-- Claim C10: the identity resolver shape check is strictly weaker than the
engagement store UUID check — every strict UUID passes the resolver check,
while the 36-hyphen string passes it yet fails the UUID check; on such an id
`ensureArticleSaved` returns the id unchanged with no store call, while
`toggleLike`, `toggleDislike`, `getLikeCount` and `getDislikeCount` are
no-ops returning false resp. 0 without any store call, so a vote gesture on
such an article writes nothing while re-reading zero counts. -/
theorem claim_C10 :
    (∀ s : String, isValidUUID s = true → isDurableShaped s = true)
    ∧ isDurableShaped "------------------------------------" = true
    ∧ isValidUUID "------------------------------------" = false
    ∧ (∀ (ok : String → Bool) (art : Article) (db : DB),
        art.id = some "------------------------------------" →
        ensureArticleSaved ok art db = (some "------------------------------------", db, []))
    ∧ (∀ (u : String) (db : DB),
        toggleLike "------------------------------------" u db = (false, db, [])
        ∧ toggleDislike "------------------------------------" u db = (false, db, []))
    ∧ (∀ db : DB,
        getLikeCount "------------------------------------" db = (0, [])
        ∧ getDislikeCount "------------------------------------" db = (0, [])) := by
  have hbad : isValidUUID "------------------------------------" = false := by decide
  refine ⟨validUUID_imp_durableShaped, by decide, hbad, ?_, ?_, ?_⟩
  · intro ok art db hid
    unfold ensureArticleSaved
    rw [hid]
    rw [if_pos (by decide)]
  · intro u db
    unfold toggleLike toggleDislike
    rw [hbad]
    exact ⟨rfl, rfl⟩
  · intro db
    unfold getLikeCount getDislikeCount
    rw [hbad]
    exact ⟨rfl, rfl⟩

/-- Witness for C10 at concrete inputs: a concrete strict UUID passes the
resolver shape check, and the hyphen id makes the resolver return it
unchanged while the vote operations are no-ops on the empty store. -/
theorem claim_C10_witness :
    isDurableShaped "aaaaaaaa-bbbb-cccc-dddd-eeeeeeeeeeee" = true
    ∧ ensureArticleSaved (fun _ => true)
        ⟨some "------------------------------------", "http://x.com/a", "t", "s", "src", "d",
         "Cat", "", "", 0, 0, 0⟩ emptyDB
        = (some "------------------------------------", emptyDB, [])
    ∧ toggleLike "------------------------------------" "u1" emptyDB = (false, emptyDB, [])
    ∧ getLikeCount "------------------------------------" emptyDB = (0, []) :=
  ⟨claim_C10.1 "aaaaaaaa-bbbb-cccc-dddd-eeeeeeeeeeee" (by decide),
   claim_C10.2.2.2.1 (fun _ => true)
     ⟨some "------------------------------------", "http://x.com/a", "t", "s", "src", "d",
      "Cat", "", "", 0, 0, 0⟩ emptyDB rfl,
   (claim_C10.2.2.2.2.1 "u1" emptyDB).1,
   (claim_C10.2.2.2.2.2 emptyDB).1⟩

/-- A valid `toggleLike` on a pair with no existing like inserts a fresh like
row and reports true. -/
lemma toggleLike_fresh (a u : String) (db : DB) (hvalid : isValidUUID a = true)
    (hnolike : hasLike db a u = false) :
    toggleLike a u db =
      (true,
       { db with dislikes := db.dislikes.filter (fun r => !voteMatches a u r),
                 likes := db.likes ++ [⟨db.nextVoteId, a, u⟩],
                 nextVoteId := db.nextVoteId + 1 },
       [.deleteVotes "dislikes" a u, .selectVote "likes" a u, .insertVote "likes" a u]) := by
  have hfd : db.likes.find? (voteMatches a u) = none :=
    find?_eq_none_of_any_false _ _ hnolike
  simp only [toggleLike, hvalid, Bool.not_true, Bool.false_eq_true, if_false]
  rw [hfd]

/-- A valid `toggleLike` on a pair whose like lookup finds row `r` deletes
that row by id and reports false. -/
lemma toggleLike_retract (a u : String) (db : DB) (r : VoteRow) (hvalid : isValidUUID a = true)
    (hfound : db.likes.find? (voteMatches a u) = some r) :
    toggleLike a u db =
      (false,
       { db with dislikes := db.dislikes.filter (fun x => !voteMatches a u x),
                 likes := db.likes.filter (fun x => x.rowId != r.rowId) },
       [.deleteVotes "dislikes" a u, .selectVote "likes" a u, .deleteVoteById "likes" r.rowId]) := by
  simp only [toggleLike, hvalid, Bool.not_true, Bool.false_eq_true, if_false]
  rw [hfound]

/-- Claim C2: on a valid durable articleId and a pair with neither vote,
calling toggleLike twice in a row returns true then false, and afterwards
every store relation — in particular the like relation and hence the like
count for that article — equals its original value.  (`hfresh` is the
store-side freshness of the next generated row id, an invariant of the
modelled id generator.) -/
theorem claim_C2 (a u : String) (db : DB)
    (hvalid : isValidUUID a = true)
    (hnolike : hasLike db a u = false)
    (hnodislike : hasDislike db a u = false)
    (hfresh : ∀ r ∈ db.likes, r.rowId ≠ db.nextVoteId) :
    (toggleLike a u db).1 = true
    ∧ (toggleLike a u (toggleLike a u db).2.1).1 = false
    ∧ (toggleLike a u (toggleLike a u db).2.1).2.1.likes = db.likes
    ∧ (toggleLike a u (toggleLike a u db).2.1).2.1.dislikes = db.dislikes
    ∧ (toggleLike a u (toggleLike a u db).2.1).2.1.articles = db.articles
    ∧ (toggleLike a u (toggleLike a u db).2.1).2.1.favorites = db.favorites
    ∧ (toggleLike a u (toggleLike a u db).2.1).2.1.comments = db.comments
    ∧ (getLikeCount a (toggleLike a u (toggleLike a u db).2.1).2.1).1 = (getLikeCount a db).1 := by
  have hdf : db.dislikes.filter (fun r => !voteMatches a u r) = db.dislikes :=
    filter_eq_self_of_none _ _ hnodislike
  have h1 := toggleLike_fresh a u db hvalid hnolike
  rw [h1]
  have hfind2 : (db.likes ++ [(⟨db.nextVoteId, a, u⟩ : VoteRow)]).find? (voteMatches a u)
      = some ⟨db.nextVoteId, a, u⟩ := by
    rw [find?_append_of_left_none _ _ _ hnolike]
    simp [List.find?, voteMatches_self]
  have h2 := toggleLike_retract a u
    { db with dislikes := db.dislikes.filter (fun r => !voteMatches a u r),
              likes := db.likes ++ [⟨db.nextVoteId, a, u⟩],
              nextVoteId := db.nextVoteId + 1 }
    ⟨db.nextVoteId, a, u⟩ hvalid hfind2
  simp only at h2
  rw [h2]
  have hlikes : (db.likes ++ [(⟨db.nextVoteId, a, u⟩ : VoteRow)]).filter
      (fun x => x.rowId != db.nextVoteId) = db.likes := by
    rw [List.filter_append]
    have hl : db.likes.filter (fun x => x.rowId != db.nextVoteId) = db.likes := by
      rw [List.filter_eq_self]
      intro x hx
      simp only [bne_iff_ne, ne_eq, decide_eq_true_eq]
      exact hfresh x hx
    have hr : ([(⟨db.nextVoteId, a, u⟩ : VoteRow)]).filter
        (fun x => x.rowId != db.nextVoteId) = [] := by
      simp
    rw [hl, hr, List.append_nil]
  constructor
  · rfl
  constructor
  · rfl
  refine ⟨?_, ?_, rfl, rfl, rfl, ?_⟩
  · simp only [hdf, hlikes]
  · simp only [hdf]
  · simp only [getLikeCount, hvalid, Bool.not_true, Bool.false_eq_true, if_false]
    simp only [hdf, hlikes]

/-- Witness for C2 on the empty store with a concrete pair. -/
theorem claim_C2_witness :
    (toggleLike "aaaaaaaa-bbbb-cccc-dddd-eeeeeeeeeeee" "u1" emptyDB).1 = true
    ∧ (toggleLike "aaaaaaaa-bbbb-cccc-dddd-eeeeeeeeeeee" "u1"
        (toggleLike "aaaaaaaa-bbbb-cccc-dddd-eeeeeeeeeeee" "u1" emptyDB).2.1).1 = false
    ∧ (toggleLike "aaaaaaaa-bbbb-cccc-dddd-eeeeeeeeeeee" "u1"
        (toggleLike "aaaaaaaa-bbbb-cccc-dddd-eeeeeeeeeeee" "u1" emptyDB).2.1).2.1.likes
        = emptyDB.likes
    ∧ (toggleLike "aaaaaaaa-bbbb-cccc-dddd-eeeeeeeeeeee" "u1"
        (toggleLike "aaaaaaaa-bbbb-cccc-dddd-eeeeeeeeeeee" "u1" emptyDB).2.1).2.1.dislikes
        = emptyDB.dislikes
    ∧ (toggleLike "aaaaaaaa-bbbb-cccc-dddd-eeeeeeeeeeee" "u1"
        (toggleLike "aaaaaaaa-bbbb-cccc-dddd-eeeeeeeeeeee" "u1" emptyDB).2.1).2.1.articles
        = emptyDB.articles
    ∧ (toggleLike "aaaaaaaa-bbbb-cccc-dddd-eeeeeeeeeeee" "u1"
        (toggleLike "aaaaaaaa-bbbb-cccc-dddd-eeeeeeeeeeee" "u1" emptyDB).2.1).2.1.favorites
        = emptyDB.favorites
    ∧ (toggleLike "aaaaaaaa-bbbb-cccc-dddd-eeeeeeeeeeee" "u1"
        (toggleLike "aaaaaaaa-bbbb-cccc-dddd-eeeeeeeeeeee" "u1" emptyDB).2.1).2.1.comments
        = emptyDB.comments
    ∧ (getLikeCount "aaaaaaaa-bbbb-cccc-dddd-eeeeeeeeeeee"
        (toggleLike "aaaaaaaa-bbbb-cccc-dddd-eeeeeeeeeeee" "u1"
          (toggleLike "aaaaaaaa-bbbb-cccc-dddd-eeeeeeeeeeee" "u1" emptyDB).2.1).2.1).1
        = (getLikeCount "aaaaaaaa-bbbb-cccc-dddd-eeeeeeeeeeee" emptyDB).1 :=
  claim_C2 "aaaaaaaa-bbbb-cccc-dddd-eeeeeeeeeeee" "u1" emptyDB
    (by decide) (by decide) (by decide) (by decide)

/-- Claim C8: a vote or favorite gesture with no authenticated user raises
the login-modal flag and stops: no store call is made, the store is
unchanged, and apart from the modal flag the whole in-memory state —
article list, counts, favorite set — is returned as it was. -/
theorem claim_C8 (ok : String → Bool) (article : Article) (st : AppState) (db : DB)
    (h : st.currentUser = none) :
    handleLike ok article st db = ({ st with showLoginModal := true }, db, [])
    ∧ handleDislike ok article st db = ({ st with showLoginModal := true }, db, [])
    ∧ handleToggleFavorite ok article st db = ({ st with showLoginModal := true }, db, []) := by
  unfold handleLike handleDislike handleToggleFavorite
  rw [h]
  exact ⟨rfl, rfl, rfl⟩

/-- Witness for C8 on a concrete signed-out state. -/
theorem claim_C8_witness :
    handleLike (fun _ => true)
      ⟨none, "http://x.com/a", "t", "s", "src", "d", "Cat", "", "", 0, 0, 0⟩
      ⟨[], none, false, [], none, none⟩ emptyDB
      = (⟨[], none, true, [], none, none⟩, emptyDB, [])
    ∧ handleDislike (fun _ => true)
      ⟨none, "http://x.com/a", "t", "s", "src", "d", "Cat", "", "", 0, 0, 0⟩
      ⟨[], none, false, [], none, none⟩ emptyDB
      = (⟨[], none, true, [], none, none⟩, emptyDB, [])
    ∧ handleToggleFavorite (fun _ => true)
      ⟨none, "http://x.com/a", "t", "s", "src", "d", "Cat", "", "", 0, 0, 0⟩
      ⟨[], none, false, [], none, none⟩ emptyDB
      = (⟨[], none, true, [], none, none⟩, emptyDB, []) :=
  claim_C8 (fun _ => true)
    ⟨none, "http://x.com/a", "t", "s", "src", "d", "Cat", "", "", 0, 0, 0⟩
    ⟨[], none, false, [], none, none⟩ emptyDB rfl


lemma freshArticleId_ne_empty (n : Nat) : freshArticleId n ≠ "" := by
  intro h
  have hlen := congrArg String.length h
  rw [freshArticleId, String.length_append] at hlen
  have h4 : "row-".length = 4 := rfl
  have h0 : "".length = 0 := rfl
  rw [h4, h0] at hlen
  omega

lemma dedupByNorm_singleton (a : Article) (h : a.url ≠ "") : dedupByNorm [a] [] = [a] := by
  unfold dedupByNorm
  rw [if_neg h]
  simp [dedupByNorm]

lemma dedupByNorm_singleton_blank (a : Article) (h : a.url = "") : dedupByNorm [a] [] = [] := by
  unfold dedupByNorm
  rw [if_pos h]
  rfl

lemma saveArticles_singleton_ok (ok : String → Bool) (label : String) (a : Article) (db : DB)
    (h : a.url ≠ "") (hok : ok a.url = true) :
    saveArticles ok label [a] db =
      ([pushSaved a (upsertArticle (mkRow (cleanCat label) a) db).1],
       (upsertArticle (mkRow (cleanCat label) a) db).2,
       [.upsertArticle a.url]) := by
  unfold saveArticles
  rw [if_neg (by simp)]
  rw [show jsTrimStr (if label ≠ "" then label else "Generale") = cleanCat label from rfl]
  rw [dedupByNorm_singleton a h]
  unfold saveLoop
  rw [hok]
  simp only [if_true]
  unfold saveLoop
  rfl

lemma saveArticles_singleton_fail (ok : String → Bool) (label : String) (a : Article) (db : DB)
    (h : a.url ≠ "") (hok : ok a.url = false) :
    saveArticles ok label [a] db = ([], db, [.upsertArticle a.url]) := by
  unfold saveArticles
  rw [if_neg (by simp)]
  rw [dedupByNorm_singleton a h]
  unfold saveLoop
  rw [hok]
  simp only [Bool.false_eq_true, if_false]
  unfold saveLoop
  rfl

lemma saveArticles_singleton_blank (ok : String → Bool) (label : String) (a : Article) (db : DB)
    (h : a.url = "") :
    saveArticles ok label [a] db = ([], db, []) := by
  unfold saveArticles
  rw [if_neg (by simp)]
  rw [dedupByNorm_singleton_blank a h]
  unfold saveLoop
  rfl

lemma upsertArticle_insert (r : ArticleInsert) (db : DB)
    (h : db.articles.find? (fun x => x.url == r.url) = none) :
    (upsertArticle r db).1.rowId = freshArticleId db.nextArticleId
    ∧ (upsertArticle r db).1.url = r.url
    ∧ (upsertArticle r db).1.category = r.category
    ∧ (upsertArticle r db).2.articles = db.articles ++ [(upsertArticle r db).1] := by
  unfold upsertArticle
  rw [h]
  exact ⟨rfl, rfl, rfl, rfl⟩

lemma mkRow_category_ensure (a : Article) :
    (mkRow (cleanCat (if a.category ≠ "" then a.category else "Generale")) a).category
      = (if a.category ≠ "" then a.category else "Generale") := by
  by_cases h : a.category = ""
  · have hg : cleanCat "Generale" = "Generale" := by decide
    simp [mkRow, h, hg]
  · simp [mkRow, h]

/-- Claim C3: the identity resolver contract of `ensureArticleSaved` — with
an id present (and, per the data-model convention that a string failing the
36-character hyphenated-hex shape is treated as not yet persisted, passing
that shape test) the id is returned unchanged with no store call; otherwise
a stored row with the same url yields that row's id with no row created;
otherwise the article is persisted with a fresh store-assigned id, the
category defaulting to "Generale" when absent; and when nothing could be
persisted the result is null with the store unchanged. -/
theorem claim_C3 (ok : String → Bool) (art : Article) (db : DB) :
    ((idTruthy art.id && isDurableShaped (art.id.getD "")) = true →
      ensureArticleSaved ok art db = (art.id, db, []))
    ∧ (∀ row : ArticleRow,
        (idTruthy art.id && isDurableShaped (art.id.getD "")) = false →
        db.articles.find? (fun x => x.url == art.url) = some row →
        ensureArticleSaved ok art db = (some row.rowId, db, [.selectArticleByUrl art.url]))
    ∧ ((idTruthy art.id && isDurableShaped (art.id.getD "")) = false →
        db.articles.find? (fun x => x.url == art.url) = none →
        ok art.url = true → art.url ≠ "" →
        ∃ row : ArticleRow,
          (ensureArticleSaved ok art db).1 = some row.rowId
          ∧ (ensureArticleSaved ok art db).2.1.articles = db.articles ++ [row]
          ∧ row.rowId = freshArticleId db.nextArticleId
          ∧ row.url = art.url
          ∧ row.category = (if art.category ≠ "" then art.category else "Generale"))
    ∧ ((idTruthy art.id && isDurableShaped (art.id.getD "")) = false →
        db.articles.find? (fun x => x.url == art.url) = none →
        (ok art.url = false ∨ art.url = "") →
        (ensureArticleSaved ok art db).1 = none
        ∧ (ensureArticleSaved ok art db).2.1 = db) := by
  refine ⟨?_, ?_, ?_, ?_⟩
  · intro hguard
    unfold ensureArticleSaved
    rw [if_pos hguard]
  · intro row hguard hfind
    unfold ensureArticleSaved
    rw [if_neg (by rw [hguard]; exact Bool.noConfusion), hfind]
  · intro hguard hfind hok hurl
    have hsave := saveArticles_singleton_ok ok
      (if art.category ≠ "" then art.category else "Generale") art db hurl hok
    have hfind2 : db.articles.find?
        (fun x => x.url == (mkRow (cleanCat (if art.category ≠ "" then art.category else "Generale")) art).url)
        = none := hfind
    have hup := upsertArticle_insert
      (mkRow (cleanCat (if art.category ≠ "" then art.category else "Generale")) art) db hfind2
    simp only [ensureArticleSaved]
    rw [if_neg (by rw [hguard]; exact Bool.noConfusion), hfind]
    rw [hsave]
    refine ⟨(upsertArticle
      (mkRow (cleanCat (if art.category ≠ "" then art.category else "Generale")) art) db).1,
      ?_, ?_, hup.1, hup.2.1, ?_⟩
    · simp only [pushSaved]
      rw [if_pos ?_]
      · rw [idTruthy]
        rw [hup.1]
        simp [freshArticleId_ne_empty]
    · exact hup.2.2.2
    · rw [hup.2.2.1]
      exact mkRow_category_ensure art
  · intro hguard hfind hfail
    simp only [ensureArticleSaved]
    rw [if_neg (by rw [hguard]; exact Bool.noConfusion), hfind]
    rcases hfail with hok | hurl
    · by_cases hurl : art.url = ""
      · rw [saveArticles_singleton_blank ok _ art db hurl]
        exact ⟨rfl, rfl⟩
      · rw [saveArticles_singleton_fail ok _ art db hurl hok]
        exact ⟨rfl, rfl⟩
    · rw [saveArticles_singleton_blank ok _ art db hurl]
      exact ⟨rfl, rfl⟩

/-- Witness for C3: persisting a transient article with no category on the
empty store assigns the first fresh row id and the default category. -/
theorem claim_C3_witness :
    ∃ row : ArticleRow,
      (ensureArticleSaved (fun _ => true)
        ⟨none, "http://x.com/a", "t", "s", "src", "d", "", "", "", 0, 0, 0⟩ emptyDB).1
        = some row.rowId
      ∧ (ensureArticleSaved (fun _ => true)
          ⟨none, "http://x.com/a", "t", "s", "src", "d", "", "", "", 0, 0, 0⟩ emptyDB).2.1.articles
        = emptyDB.articles ++ [row]
      ∧ row.rowId = freshArticleId emptyDB.nextArticleId
      ∧ row.url = "http://x.com/a"
      ∧ row.category = (if ("" : String) ≠ "" then "" else "Generale") :=
  (claim_C3 (fun _ => true)
    ⟨none, "http://x.com/a", "t", "s", "src", "d", "", "", "", 0, 0, 0⟩ emptyDB).2.2.1
    (by decide) (by decide) rfl (by decide)

/-- Counterexample to C7 as stated: in a list where no article has a truthy
id, an article without a durable id keeps its incoming counts (5 and 3)
instead of having them defaulted to zero — the enrichment short-circuits and
returns the list unmodified. -/
theorem claim_C7_counterexample :
    enrichArticlesWithCounts true
        [⟨none, "http://x.com/a", "t", "s", "src", "d", "Cat", "", "", 0, 5, 3⟩] emptyDB
      = [⟨none, "http://x.com/a", "t", "s", "src", "d", "Cat", "", "", 0, 5, 3⟩]
    ∧ ((enrichArticlesWithCounts true
        [⟨none, "http://x.com/a", "t", "s", "src", "d", "Cat", "", "", 0, 5, 3⟩] emptyDB).all
        (fun a => a.likeCount == 0 && a.dislikeCount == 0)) = false := by
  exact ⟨rfl, rfl⟩


lemma idTruthy_eq_some (o : Option String) (h : idTruthy o = true) : o = some (o.getD "") := by
  cases o with
  | none =>
    exact absurd h (by decide)
  | some s =>
    rfl

lemma idTruthy_of_validUUID (o : Option String) (h : isValidUUID (o.getD "") = true) :
    idTruthy o = true := by
  cases o with
  | none =>
    exact absurd h (by decide)
  | some s =>
    rw [idTruthy]
    simp only [Option.getD_some] at h ⊢
    rw [isValidUUID, Bool.and_eq_true, Bool.and_eq_true] at h
    simpa using h.1.1

lemma mem_truthyIds_of_mem (list : List Article) (a : Article) (ha : a ∈ list)
    (ht : idTruthy a.id = true) : (a.id.getD "") ∈ truthyIds list := by
  unfold truthyIds
  rw [List.mem_filterMap]
  refine ⟨a.id, List.mem_map_of_mem _ ha, ?_⟩
  rw [if_pos ht]
  exact idTruthy_eq_some a.id ht

/-- Claim C7 as amended: when at least one article in the list has a truthy
id and the batched lookup succeeds, enrichment maps each article in place
(length, order and every field other than the two counters preserved),
overwriting the counters of every durably-identified article with the values
of the single batched count lookup — which equal the exact per-article
relation counts — and zeroing the counters of every article without a
durable id; when no article has a truthy id, or when the batched lookup
fails, the original list is returned unmodified. -/
theorem claim_C7 (batchOk : Bool) (list : List Article) (db : DB) :
    (truthyIds list = [] → enrichArticlesWithCounts batchOk list db = list)
    ∧ (batchOk = false → enrichArticlesWithCounts batchOk list db = list)
    ∧ (truthyIds list ≠ [] → batchOk = true →
        ∃ f : Article → Article,
          enrichArticlesWithCounts batchOk list db = list.map f
          ∧ (∀ a : Article,
              (f a).id = a.id ∧ (f a).url = a.url ∧ (f a).title = a.title
              ∧ (f a).summary = a.summary ∧ (f a).source = a.source ∧ (f a).date = a.date
              ∧ (f a).category = a.category ∧ (f a).imageUrl = a.imageUrl
              ∧ (f a).audioBase64 = a.audioBase64 ∧ (f a).sentimentScore = a.sentimentScore)
          ∧ (∀ a : Article, isValidUUID (a.id.getD "") = true → a ∈ list →
              (f a).likeCount = ((getBatchCounts (truthyIds list) db).1).likes (a.id.getD "")
              ∧ (f a).dislikeCount = ((getBatchCounts (truthyIds list) db).1).dislikes (a.id.getD "")
              ∧ ((getBatchCounts (truthyIds list) db).1).likes (a.id.getD "")
                  = (db.likes.filter (fun r => r.articleId == a.id.getD "")).length
              ∧ ((getBatchCounts (truthyIds list) db).1).dislikes (a.id.getD "")
                  = (db.dislikes.filter (fun r => r.articleId == a.id.getD "")).length)
          ∧ (∀ a : Article, isValidUUID (a.id.getD "") = false →
              (f a).likeCount = 0 ∧ (f a).dislikeCount = 0)) := by
  refine ⟨?_, ?_, ?_⟩
  · intro h
    unfold enrichArticlesWithCounts
    rw [h]
    rfl
  · intro h
    subst h
    unfold enrichArticlesWithCounts
    by_cases hids : truthyIds list = []
    · rw [hids]
      rfl
    · rw [if_neg (by simpa [List.isEmpty_iff] using hids)]
      rfl
  · intro hids hok
    subst hok
    refine ⟨fun a =>
      { a with likeCount := if idTruthy a.id
                 then ((getBatchCounts (truthyIds list) db).1).likes (a.id.getD "") else 0
               dislikeCount := if idTruthy a.id
                 then ((getBatchCounts (truthyIds list) db).1).dislikes (a.id.getD "") else 0 },
      ?_, ?_, ?_, ?_⟩
    · unfold enrichArticlesWithCounts
      rw [if_neg (by simpa [List.isEmpty_iff] using hids)]
      rfl
    · intro a
      exact ⟨rfl, rfl, rfl, rfl, rfl, rfl, rfl, rfl, rfl, rfl⟩
    · intro a hvalid hmem
      have htruthy : idTruthy a.id = true := idTruthy_of_validUUID a.id hvalid
      have hmemid := mem_truthyIds_of_mem list a hmem htruthy
      have hvalidmem : (a.id.getD "") ∈ (truthyIds list).filter isValidUUID := by
        rw [List.mem_filter]
        exact ⟨hmemid, hvalid⟩
      have hne : ¬((truthyIds list).filter isValidUUID).isEmpty = true := by
        rw [List.isEmpty_iff]
        intro hcon
        rw [hcon] at hvalidmem
        exact List.not_mem_nil _ hvalidmem
      have hcontains : ((truthyIds list).filter isValidUUID).contains (a.id.getD "") = true :=
        List.elem_eq_true_of_mem hvalidmem
      constructor
      · simp only [htruthy, if_true]
      constructor
      · simp only [htruthy, if_true]
      · unfold getBatchCounts
        rw [if_neg hne]
        simp only
        rw [if_pos hcontains, if_pos hcontains]
        exact ⟨rfl, rfl⟩
    · intro a hinvalid
      have hnotc : ∀ x : String, x = a.id.getD "" →
          ((truthyIds list).filter isValidUUID).contains x = false := by
        intro x hx
        subst hx
        by_contra hcon
        rw [Bool.not_eq_false] at hcon
        have hmem := List.mem_of_elem_eq_true hcon
        rw [List.mem_filter] at hmem
        rw [hinvalid] at hmem
        exact Bool.noConfusion hmem.2
      by_cases htruthy : idTruthy a.id = true
      · constructor
        · simp only [htruthy, if_true]
          unfold getBatchCounts
          by_cases hne : ((truthyIds list).filter isValidUUID).isEmpty = true
          · rw [if_pos hne]
          · rw [if_neg hne]
            simp only
            rw [if_neg (by rw [hnotc _ rfl]; exact Bool.noConfusion)]
        · simp only [htruthy, if_true]
          unfold getBatchCounts
          by_cases hne : ((truthyIds list).filter isValidUUID).isEmpty = true
          · rw [if_pos hne]
          · rw [if_neg hne]
            simp only
            rw [if_neg (by rw [hnotc _ rfl]; exact Bool.noConfusion)]
      · rw [Bool.not_eq_true] at htruthy
        constructor
        · simp only [htruthy, Bool.false_eq_true, if_false]
        · simp only [htruthy, Bool.false_eq_true, if_false]

/-- Witness for the amended C7 on a concrete two-article list: one article
with a valid durable id (one like in store), one without id. -/
theorem claim_C7_witness :
    ∃ f : Article → Article,
      enrichArticlesWithCounts true [sampleArtValid, sampleArtNoId] sampleDB7
        = List.map f [sampleArtValid, sampleArtNoId]
      ∧ (∀ a : Article,
          (f a).id = a.id ∧ (f a).url = a.url ∧ (f a).title = a.title
          ∧ (f a).summary = a.summary ∧ (f a).source = a.source ∧ (f a).date = a.date
          ∧ (f a).category = a.category ∧ (f a).imageUrl = a.imageUrl
          ∧ (f a).audioBase64 = a.audioBase64 ∧ (f a).sentimentScore = a.sentimentScore)
      ∧ (∀ a : Article, isValidUUID (a.id.getD "") = true → a ∈ [sampleArtValid, sampleArtNoId] →
          (f a).likeCount
            = ((getBatchCounts (truthyIds [sampleArtValid, sampleArtNoId]) sampleDB7).1).likes
                (a.id.getD "")
          ∧ (f a).dislikeCount
            = ((getBatchCounts (truthyIds [sampleArtValid, sampleArtNoId]) sampleDB7).1).dislikes
                (a.id.getD "")
          ∧ ((getBatchCounts (truthyIds [sampleArtValid, sampleArtNoId]) sampleDB7).1).likes
                (a.id.getD "")
              = (sampleDB7.likes.filter (fun r => r.articleId == a.id.getD "")).length
          ∧ ((getBatchCounts (truthyIds [sampleArtValid, sampleArtNoId]) sampleDB7).1).dislikes
                (a.id.getD "")
              = (sampleDB7.dislikes.filter (fun r => r.articleId == a.id.getD "")).length)
      ∧ (∀ a : Article, isValidUUID (a.id.getD "") = false →
          (f a).likeCount = 0 ∧ (f a).dislikeCount = 0) :=
  (claim_C7 true [sampleArtValid, sampleArtNoId] sampleDB7).2.2 (by decide) rfl

/-! ## Claim C4: saveArticles batch behaviour -/

/-- Counterexample to C4 as stated: a batch consisting of one article whose
url is the empty string has one unique normalized key, yet `saveArticles`
performs no upsert at all (the `if (a.url)` guard drops the article), and
returns nothing although no persistence call errored. -/
theorem claim_C4_counterexample :
    (saveArticles (fun _ => true) "Cat"
        [⟨none, "", "t", "s", "src", "d", "Cat", "", "", 0, 0, 0⟩] emptyDB).2.2.length = 0
    ∧ (claimedUniqueKeys [⟨none, "", "t", "s", "src", "d", "Cat", "", "", 0, 0, 0⟩]).length = 1
    ∧ (saveArticles (fun _ => true) "Cat"
        [⟨none, "", "t", "s", "src", "d", "Cat", "", "", 0, 0, 0⟩] emptyDB).1 = [] := by
  refine ⟨rfl, rfl, rfl⟩

lemma dedupByNorm_keys (l : List Article) : ∀ (seen : List String),
    ((dedupByNorm l seen).map normKey).Nodup
    ∧ (∀ k ∈ (dedupByNorm l seen).map normKey, ¬ seen.contains k = true) := by
  induction l with
  | nil =>
    intro seen
    exact ⟨List.nodup_nil, fun k hk => absurd hk (List.not_mem_nil k)⟩
  | cons a rest ih =>
    intro seen
    unfold dedupByNorm
    by_cases h1 : a.url = ""
    · rw [if_pos h1]
      exact ih seen
    · rw [if_neg h1]
      by_cases h2 : seen.contains (normalizeUrl a.url) = true
      · rw [if_pos h2]
        exact ih seen
      · rw [if_neg h2]
        have ih' := ih (normalizeUrl a.url :: seen)
        constructor
        · rw [List.map_cons, List.nodup_cons]
          constructor
          · intro hmem
            exact ih'.2 _ hmem (List.elem_eq_true_of_mem (List.mem_cons_self _ _))
          · exact ih'.1
        · intro k hk
          rw [List.map_cons, List.mem_cons] at hk
          rcases hk with rfl | hk
          · exact fun hc => h2 hc
          · intro hc
            exact ih'.2 k hk
              (List.elem_eq_true_of_mem (List.mem_cons_of_mem _ (List.mem_of_elem_eq_true hc)))

lemma dedupByNorm_covers (l : List Article) : ∀ (seen : List String) (a : Article),
    a ∈ l → a.url ≠ "" →
    normKey a ∈ (dedupByNorm l seen).map normKey ∨ seen.contains (normKey a) = true := by
  induction l with
  | nil =>
    intro seen a ha _
    exact absurd ha (List.not_mem_nil a)
  | cons b rest ih =>
    intro seen a ha hurl
    unfold dedupByNorm
    rcases List.mem_cons.mp ha with rfl | ha'
    · rw [if_neg hurl]
      by_cases h2 : seen.contains (normalizeUrl a.url) = true
      · rw [if_pos h2]
        exact Or.inr h2
      · rw [if_neg h2]
        left
        rw [List.map_cons]
        exact List.mem_cons_self _ _
    · by_cases h1 : b.url = ""
      · rw [if_pos h1]
        exact ih seen a ha' hurl
      · rw [if_neg h1]
        by_cases h2 : seen.contains (normalizeUrl b.url) = true
        · rw [if_pos h2]
          exact ih seen a ha' hurl
        · rw [if_neg h2]
          rcases ih (normalizeUrl b.url :: seen) a ha' hurl with hin | hc
          · left
            rw [List.map_cons]
            exact List.mem_cons_of_mem _ hin
          · rcases List.mem_cons.mp (List.mem_of_elem_eq_true hc) with heq | hmem
            · left
              rw [List.map_cons, heq]
              exact List.mem_cons_self _ _
            · exact Or.inr (List.elem_eq_true_of_mem hmem)

lemma saveLoop_cons_ok (ok : String → Bool) (cc : String) (a : Article) (rest : List Article)
    (db : DB) (h : ok a.url = true) :
    saveLoop ok cc (a :: rest) db
      = (pushSaved a (upsertArticle (mkRow cc a) db).1
           :: (saveLoop ok cc rest (upsertArticle (mkRow cc a) db).2).1,
         (saveLoop ok cc rest (upsertArticle (mkRow cc a) db).2).2.1,
         StoreCall.upsertArticle a.url
           :: (saveLoop ok cc rest (upsertArticle (mkRow cc a) db).2).2.2) := by
  conv_lhs => rw [saveLoop]
  rw [if_pos h]

lemma saveLoop_cons_fail (ok : String → Bool) (cc : String) (a : Article) (rest : List Article)
    (db : DB) (h : ok a.url = false) :
    saveLoop ok cc (a :: rest) db
      = ((saveLoop ok cc rest db).1, (saveLoop ok cc rest db).2.1,
         StoreCall.upsertArticle a.url :: (saveLoop ok cc rest db).2.2) := by
  conv_lhs => rw [saveLoop]
  rw [if_neg (by rw [h]; exact Bool.noConfusion)]

lemma saveLoop_trace (ok : String → Bool) (cc : String) : ∀ (l : List Article) (db : DB),
    (saveLoop ok cc l db).2.2 = l.map (fun a => StoreCall.upsertArticle a.url) := by
  intro l
  induction l with
  | nil => intro db; rfl
  | cons a rest ih =>
    intro db
    by_cases h : ok a.url = true
    · rw [saveLoop_cons_ok ok cc a rest db h, List.map_cons]
      exact congrArg _ (ih _)
    · rw [Bool.not_eq_true] at h
      rw [saveLoop_cons_fail ok cc a rest db h, List.map_cons]
      exact congrArg _ (ih _)

lemma saveLoop_saved_urls (ok : String → Bool) (cc : String) : ∀ (l : List Article) (db : DB),
    (saveLoop ok cc l db).1.map (fun s => s.url)
      = (l.filter (fun a => ok a.url)).map (fun a => a.url) := by
  intro l
  induction l with
  | nil => intro db; rfl
  | cons a rest ih =>
    intro db
    by_cases h : ok a.url = true
    · rw [saveLoop_cons_ok ok cc a rest db h]
      simp only [List.filter_cons]
      rw [if_pos h]
      rw [List.map_cons, List.map_cons]
      exact congrArg _ (ih _)
    · rw [Bool.not_eq_true] at h
      rw [saveLoop_cons_fail ok cc a rest db h]
      simp only [List.filter_cons]
      rw [if_neg (by rw [h]; exact Bool.noConfusion)]
      exact ih _

lemma saveLoop_saved_ids (ok : String → Bool) (cc : String) : ∀ (l : List Article) (db : DB),
    ∀ s ∈ (saveLoop ok cc l db).1, s.id.isSome = true := by
  intro l
  induction l with
  | nil =>
    intro db s hs
    exact absurd hs (List.not_mem_nil s)
  | cons a rest ih =>
    intro db s hs
    by_cases h : ok a.url = true
    · rw [saveLoop_cons_ok ok cc a rest db h] at hs
      rcases List.mem_cons.mp hs with rfl | hs'
      · rfl
      · exact ih _ s hs'
    · rw [Bool.not_eq_true] at h
      rw [saveLoop_cons_fail ok cc a rest db h] at hs
      exact ih _ s hs

lemma saveLoop_rows_urls (ok : String → Bool) (cc : String) : ∀ (l : List Article) (db : DB),
    (∀ a ∈ l, ∀ r ∈ db.articles, ¬(r.url = a.url)) →
    ((l.map (fun a => a.url)).Nodup) →
    (saveLoop ok cc l db).2.1.articles.map (fun r => r.url)
      = db.articles.map (fun r => r.url) ++ (l.filter (fun a => ok a.url)).map (fun a => a.url) := by
  intro l
  induction l with
  | nil =>
    intro db _ _
    simp [saveLoop]
  | cons a rest ih =>
    intro db hdisj hnodup
    rw [List.map_cons, List.nodup_cons] at hnodup
    by_cases h : ok a.url = true
    · rw [saveLoop_cons_ok ok cc a rest db h]
      have hfind : db.articles.find? (fun x => x.url == (mkRow cc a).url) = none := by
        rw [List.find?_eq_none]
        intro x hx
        have hne := hdisj a (List.mem_cons_self _ _) x hx
        simp only [beq_iff_eq]
        exact hne
      have hup := upsertArticle_insert (mkRow cc a) db hfind
      have harts : (upsertArticle (mkRow cc a) db).2.articles
          = db.articles ++ [(upsertArticle (mkRow cc a) db).1] := hup.2.2.2
      have hupurl : (upsertArticle (mkRow cc a) db).1.url = a.url := hup.2.1
      have hih := ih (upsertArticle (mkRow cc a) db).2 ?hd1 hnodup.2
      case hd1 =>
        intro b hb r hr
        rw [harts] at hr
        rcases List.mem_append.mp hr with hr' | hr'
        · exact hdisj b (List.mem_cons_of_mem _ hb) r hr'
        · rcases List.mem_singleton.mp hr' with rfl
          rw [hupurl]
          intro heq
          exact hnodup.1 (heq ▸ List.mem_map_of_mem (fun a => a.url) hb)
      rw [hih, harts]
      rw [List.map_append, List.filter_cons]
      rw [if_pos h]
      rw [List.map_cons, List.map_cons]
      rw [List.map_nil, hupurl]
      rw [List.append_assoc]
      rfl
    · rw [Bool.not_eq_true] at h
      rw [saveLoop_cons_fail ok cc a rest db h]
      have hih := ih db (fun b hb => hdisj b (List.mem_cons_of_mem _ hb)) hnodup.2
      rw [hih, List.filter_cons]
      rw [if_neg (by rw [h]; exact Bool.noConfusion)]

/-- Claim C4 as amended: `saveArticles` drops articles with an empty url,
deduplicates the remaining input by normalized url (first occurrence wins:
the kept batch has pairwise distinct keys covering every nonempty-url
article's key), performs exactly one upsert per kept article, and returns
exactly the kept articles whose persistence call succeeded, each with a
durable id attached; starting from an empty store this persists exactly one
row per unique successful key. -/
theorem claim_C4 (ok : String → Bool) (label : String) (articles : List Article) (db : DB) :
    ((saveArticles ok label articles db).2.2
        = (dedupByNorm articles []).map (fun a => StoreCall.upsertArticle a.url))
    ∧ ((dedupByNorm articles []).map normKey).Nodup
    ∧ (∀ a ∈ articles, a.url ≠ "" → normKey a ∈ (dedupByNorm articles []).map normKey)
    ∧ ((saveArticles ok label articles db).1.map (fun s => s.url)
        = ((dedupByNorm articles []).filter (fun a => ok a.url)).map (fun a => a.url))
    ∧ (∀ s ∈ (saveArticles ok label articles db).1, s.id.isSome = true)
    ∧ ((saveArticles ok label articles emptyDB).2.1.articles.map (fun r => r.url)
        = ((dedupByNorm articles []).filter (fun a => ok a.url)).map (fun a => a.url))
    ∧ ((saveArticles ok label articles emptyDB).2.1.articles.map
        (fun r => normalizeUrl r.url)).Nodup := by
  have hkeys : ((dedupByNorm articles []).map normKey).Nodup := (dedupByNorm_keys articles []).1
  by_cases hemp : articles = []
  · subst hemp
    refine ⟨rfl, List.nodup_nil, ?_, rfl, ?_, rfl, List.nodup_nil⟩
    · intro a ha
      exact absurd ha (List.not_mem_nil a)
    · intro s hs
      exact absurd hs (List.not_mem_nil s)
  · have heq : ∀ d : DB, saveArticles ok label articles d
        = saveLoop ok (jsTrimStr (if label ≠ "" then label else "Generale"))
            (dedupByNorm articles []) d := by
      intro d
      unfold saveArticles
      rw [if_neg (by simpa [List.isEmpty_iff] using hemp)]
    have hurlsnodup : ((dedupByNorm articles []).map (fun a => a.url)).Nodup := by
      have hmm : (dedupByNorm articles []).map normKey
          = ((dedupByNorm articles []).map (fun a => a.url)).map normalizeUrl := by
        rw [List.map_map]
        rfl
      rw [hmm] at hkeys
      exact hkeys.of_map
    have hrows := saveLoop_rows_urls ok
      (jsTrimStr (if label ≠ "" then label else "Generale")) (dedupByNorm articles []) emptyDB
      (fun a _ r hr => absurd hr (List.not_mem_nil r)) hurlsnodup
    have h6 : (saveArticles ok label articles emptyDB).2.1.articles.map (fun r => r.url)
        = ((dedupByNorm articles []).filter (fun a => ok a.url)).map (fun a => a.url) := by
      rw [heq emptyDB, hrows]
      rfl
    refine ⟨?_, (dedupByNorm_keys articles []).1, ?_, ?_, ?_, h6, ?_⟩
    · rw [heq db]
      exact saveLoop_trace _ _ _ _
    · intro a ha hurl
      rcases dedupByNorm_covers articles [] a ha hurl with h | h
      · exact h
      · exact Bool.noConfusion h
    · rw [heq db]
      exact saveLoop_saved_urls _ _ _ _
    · rw [heq db]
      exact saveLoop_saved_ids _ _ _ _
    · have hmap2 : (saveArticles ok label articles emptyDB).2.1.articles.map
          (fun r => normalizeUrl r.url)
          = ((saveArticles ok label articles emptyDB).2.1.articles.map
              (fun r => r.url)).map normalizeUrl := by
        rw [List.map_map]
        rfl
      rw [hmap2, h6]
      have hmap3 : (((dedupByNorm articles []).filter (fun a => ok a.url)).map
          (fun a => a.url)).map normalizeUrl
          = ((dedupByNorm articles []).filter (fun a => ok a.url)).map normKey := by
        rw [List.map_map]
        rfl
      rw [hmap3]
      have hsub : List.Sublist
          (((dedupByNorm articles []).filter (fun a => ok a.url)).map normKey)
          ((dedupByNorm articles []).map normKey) :=
        List.Sublist.map _ (List.filter_sublist _)
      exact List.Nodup.sublist hsub ((dedupByNorm_keys articles []).1)

/-- Witness for the amended C4: a batch of two articles with the same
normalized key collapses to one kept article, whose key covers both. -/
theorem claim_C4_witness :
    (dedupByNorm [artDup1, artDup2] []).length = 1
    ∧ normKey artDup2 ∈ (dedupByNorm [artDup1, artDup2] []).map normKey :=
  ⟨by decide,
   (claim_C4 (fun _ => true) "Cat" [artDup1, artDup2] emptyDB).2.2.1 artDup2
     (by decide) (by decide)⟩

/-! ## Claim C5: URL normalization equivalences -/

lemma splitAtColon_append (s t : List Char) (h : ∀ c ∈ s, c ≠ ':') :
    splitAtColon (s ++ ':' :: t) = some (s, t) := by
  induction s with
  | nil => rfl
  | cons c cs ih =>
    have hc : c ≠ ':' := h c (List.mem_cons_self _ _)
    rw [List.cons_append]
    unfold splitAtColon
    rw [if_neg hc]
    rw [ih (fun d hd => h d (List.mem_cons_of_mem _ hd))]
    rfl

lemma scheme_no_colon (s : List Char) (h : validScheme s = true) : ∀ c ∈ s, c ≠ ':' := by
  cases s with
  | nil =>
    intro c hc
    exact absurd hc (List.not_mem_nil c)
  | cons c0 rest =>
    rw [validScheme, Bool.and_eq_true, List.all_eq_true] at h
    intro c hc
    rcases List.mem_cons.mp hc with rfl | hmem
    · intro heq
      rw [heq] at h
      exact absurd h.1 (by decide)
    · intro heq
      have := h.2 c hmem
      rw [heq] at this
      exact absurd this (by decide)

lemma parseURL_hier (s rest : List Char) (h : validScheme s = true) :
    parseURL (s ++ ':' :: '/' :: '/' :: rest) = some ⟨hostPart rest, pathPart rest⟩ := by
  unfold parseURL
  rw [splitAtColon_append s ('/' :: '/' :: rest) (scheme_no_colon s h)]
  dsimp only
  rw [if_pos h]
  rfl

lemma takeWhile_append_all (p : Char → Bool) (l1 l2 : List Char)
    (h : ∀ c ∈ l1, p c = true) : (l1 ++ l2).takeWhile p = l1 ++ l2.takeWhile p := by
  induction l1 with
  | nil => rfl
  | cons c cs ih =>
    rw [List.cons_append, List.takeWhile_cons, h c (List.mem_cons_self _ _)]
    rw [ih (fun d hd => h d (List.mem_cons_of_mem _ hd))]
    rfl

lemma dropWhile_append_all (p : Char → Bool) (l1 l2 : List Char)
    (h : ∀ c ∈ l1, p c = true) : (l1 ++ l2).dropWhile p = l2.dropWhile p := by
  induction l1 with
  | nil => rfl
  | cons c cs ih =>
    rw [List.cons_append, List.dropWhile_cons, h c (List.mem_cons_self _ _)]
    rw [ih (fun d hd => h d (List.mem_cons_of_mem _ hd))]
    rfl

lemma takeWhile_all (p : Char → Bool) (l : List Char)
    (h : ∀ c ∈ l, p c = true) : l.takeWhile p = l := by
  induction l with
  | nil => rfl
  | cons c cs ih =>
    rw [List.takeWhile_cons, h c (List.mem_cons_self _ _)]
    rw [ih (fun d hd => h d (List.mem_cons_of_mem _ hd))]
    rfl

lemma dropWhile_all (p : Char → Bool) (l : List Char)
    (h : ∀ c ∈ l, p c = true) : l.dropWhile p = [] := by
  induction l with
  | nil => rfl
  | cons c cs ih =>
    rw [List.dropWhile_cons, h c (List.mem_cons_self _ _)]
    rw [ih (fun d hd => h d (List.mem_cons_of_mem _ hd))]
    rfl

lemma takeWhile_cons_neg (p : Char → Bool) (c : Char) (t : List Char) (h : p c = false) :
    (c :: t).takeWhile p = [] := by
  rw [List.takeWhile_cons, h]
  rfl

lemma dropWhile_cons_neg (p : Char → Bool) (c : Char) (t : List Char) (h : p c = false) :
    (c :: t).dropWhile p = c :: t := by
  rw [List.dropWhile_cons, h]
  rfl

lemma strip_concat_slash (l : List Char) : stripOneTrailingSlash (l ++ ['/']) = l := by
  unfold stripOneTrailingSlash
  rw [if_pos (by rw [List.getLast?_concat])]
  rw [List.dropLast_concat]

lemma strip_no_slash (l : List Char) (h : l.getLast? ≠ some '/') :
    stripOneTrailingSlash l = l := by
  unfold stripOneTrailingSlash
  rw [if_neg h]

/-- Claim C5: `normalizeUrl` is total by construction (the embedded function
mirrors the try/catch and yields a key for every input string), and within
the modelled parser two hierarchical URL strings that differ only in their
scheme, or only in a single trailing slash on the path, normalize to the
same key. -/
theorem claim_C5 :
    (∀ s1 s2 rest : List Char, validScheme s1 = true → validScheme s2 = true →
      normalizeUrl ⟨s1 ++ ':' :: '/' :: '/' :: rest⟩
        = normalizeUrl ⟨s2 ++ ':' :: '/' :: '/' :: rest⟩)
    ∧ (∀ s hst p : List Char, validScheme s = true →
        (∀ c ∈ hst, isHostEnd c = false) →
        (∀ c ∈ p, isPathEnd c = false) →
        (p = [] ∨ ∃ t, p = '/' :: t) →
        p.getLast? ≠ some '/' →
        normalizeUrl ⟨s ++ ':' :: '/' :: '/' :: (hst ++ p ++ ['/'])⟩
          = normalizeUrl ⟨s ++ ':' :: '/' :: '/' :: (hst ++ p)⟩) := by
  constructor
  · intro s1 s2 rest h1 h2
    unfold normalizeUrl
    congr 1
    unfold normalizeChars
    dsimp only
    rw [parseURL_hier s1 rest h1, parseURL_hier s2 rest h2]
  · intro s hst p hs hh hp hshape hlast
    unfold normalizeUrl
    congr 1
    unfold normalizeChars
    dsimp only
    rw [parseURL_hier s (hst ++ p ++ ['/']) hs, parseURL_hier s (hst ++ p) hs]
    dsimp only
    have hhb : ∀ c ∈ hst, (!isHostEnd c) = true := by
      intro c hc
      rw [hh c hc]
      rfl
    rcases hshape with rfl | ⟨t, rfl⟩
    · rw [List.append_nil]
      have hhost1 : hostPart (hst ++ ['/']) = hst := by
        unfold hostPart
        rw [takeWhile_append_all _ hst _ hhb]
        rw [takeWhile_cons_neg _ '/' [] (by decide)]
        rw [List.append_nil]
      have hdrop1 : (hst ++ ['/']).dropWhile (fun c => !isHostEnd c) = ['/'] := by
        rw [dropWhile_append_all _ hst _ hhb]
        exact dropWhile_cons_neg _ '/' [] (by decide)
      have hafter1 : afterHost (hst ++ ['/']) = ['/'] := by
        unfold afterHost
        rw [hdrop1]
        rfl
      have hpath1 : pathPart (hst ++ ['/']) = ['/'] := by
        unfold pathPart
        rw [hafter1]
        rfl
      have hhost2 : hostPart hst = hst := by
        unfold hostPart
        exact takeWhile_all _ hst hhb
      have hdrop2 : hst.dropWhile (fun c => !isHostEnd c) = [] := dropWhile_all _ hst hhb
      have hafter2 : afterHost hst = [] := by
        unfold afterHost
        rw [hdrop2]
      have hpath2 : pathPart hst = ['/'] := by
        unfold pathPart
        rw [hafter2]
      rw [hhost1, hpath1, hhost2, hpath2]
    · have hpall : ∀ c ∈ '/' :: t, (!isPathEnd c) = true := by
        intro c hc
        rw [hp c hc]
        rfl
      have hpall2 : ∀ c ∈ '/' :: (t ++ ['/']), (!isPathEnd c) = true := by
        intro c hc
        rcases List.mem_cons.mp hc with rfl | hc'
        · rfl
        · rcases List.mem_append.mp hc' with hc'' | hc''
          · exact hpall c (List.mem_cons_of_mem _ hc'')
          · rcases List.mem_singleton.mp hc'' with rfl
            rfl
      have hassoc : hst ++ '/' :: t ++ ['/'] = hst ++ '/' :: (t ++ ['/']) := by
        rw [List.append_assoc]
        rfl
      rw [hassoc]
      have hhost1 : hostPart (hst ++ '/' :: (t ++ ['/'])) = hst := by
        unfold hostPart
        rw [takeWhile_append_all _ hst _ hhb]
        rw [takeWhile_cons_neg _ '/' _ (by decide)]
        rw [List.append_nil]
      have hdrop1 : (hst ++ '/' :: (t ++ ['/'])).dropWhile (fun c => !isHostEnd c)
          = '/' :: (t ++ ['/']) := by
        rw [dropWhile_append_all _ hst _ hhb]
        exact dropWhile_cons_neg _ '/' _ (by decide)
      have hafter1 : afterHost (hst ++ '/' :: (t ++ ['/'])) = '/' :: (t ++ ['/']) := by
        unfold afterHost
        rw [hdrop1]
        rfl
      have hpath1 : pathPart (hst ++ '/' :: (t ++ ['/'])) = '/' :: (t ++ ['/']) := by
        unfold pathPart
        rw [hafter1]
        exact takeWhile_all _ _ hpall2
      have hhost2 : hostPart (hst ++ '/' :: t) = hst := by
        unfold hostPart
        rw [takeWhile_append_all _ hst _ hhb]
        rw [takeWhile_cons_neg _ '/' _ (by decide)]
        rw [List.append_nil]
      have hdrop2 : (hst ++ '/' :: t).dropWhile (fun c => !isHostEnd c) = '/' :: t := by
        rw [dropWhile_append_all _ hst _ hhb]
        exact dropWhile_cons_neg _ '/' _ (by decide)
      have hafter2 : afterHost (hst ++ '/' :: t) = '/' :: t := by
        unfold afterHost
        rw [hdrop2]
        rfl
      have hpath2 : pathPart (hst ++ '/' :: t) = '/' :: t := by
        unfold pathPart
        rw [hafter2]
        exact takeWhile_all _ _ hpall
      rw [hhost1, hpath1, hhost2, hpath2]
      have hcons : ('/' : Char) :: (t ++ ['/']) = ('/' :: t) ++ ['/'] := by
        rw [List.cons_append]
      rw [hcons, strip_concat_slash, strip_no_slash ('/' :: t) hlast]

/-- Witness for C5: http and https over the same host and path give the same
key, and a single trailing path slash is absorbed. -/
theorem claim_C5_witness :
    normalizeUrl ⟨['h', 't', 't', 'p'] ++ ':' :: '/' :: '/' :: ['x', '.', 'c', 'o', 'm', '/', 'a']⟩
      = normalizeUrl
        ⟨['h', 't', 't', 'p', 's'] ++ ':' :: '/' :: '/' :: ['x', '.', 'c', 'o', 'm', '/', 'a']⟩
    ∧ normalizeUrl
        ⟨['h', 't', 't', 'p'] ++ ':' :: '/' :: '/' :: (['x', '.', 'c', 'o', 'm'] ++ ['/', 'a'] ++ ['/'])⟩
      = normalizeUrl
        ⟨['h', 't', 't', 'p'] ++ ':' :: '/' :: '/' :: (['x', '.', 'c', 'o', 'm'] ++ ['/', 'a'])⟩ :=
  ⟨claim_C5.1 ['h', 't', 't', 'p'] ['h', 't', 't', 'p', 's'] ['x', '.', 'c', 'o', 'm', '/', 'a']
     (by decide) (by decide),
   claim_C5.2 ['h', 't', 't', 'p'] ['x', '.', 'c', 'o', 'm'] ['/', 'a']
     (by decide) (by decide) (by decide) (Or.inr ⟨['a'], rfl⟩) (by decide)⟩
